import Mathlib

/-!
Verification of the flexbuffers-js core (src/lib.rs): a napi binding that
encodes `serde_json::Value` trees into flexbuffer byte buffers and back.

Modelling choices:
* `Value` embeds `serde_json::Value`; `JNum` embeds `serde_json::Number`
  (its internal `N` enum: `PosInt(u64)`, `NegInt(i64)`, `Float(f64)`).
* Finite 64-bit floats are embedded as the rational number they denote
  (distinct finite doubles denote distinct rationals, and `+0.0 == -0.0`
  matches `(0 : ℚ)`); `F64` adds the non-finite payloads NaN and the two
  infinities, which `serde_json::Number::from_f64` rejects.
* `FlexNode` embeds a flexbuffer node tree: the tag vocabulary of
  `flexbuffers::FlexBufferType` that `lib.rs` dispatches on.  All the
  vector sub-variants (lines 155-170 of lib.rs) feed one `as_vector`
  branch, so they are collapsed into the single `vector` constructor;
  the tags that `deserialize_value` rejects (Key, Blob, IndirectInt,
  IndirectUInt, IndirectFloat) are separate constructors.
* The physical byte layout is owned by the external `flexbuffers` crate
  and is out of scope for the spec (§1, §6); buffers are embedded as
  streams of wire atoms (`BByte`) with an executable builder/parser pair
  that realises the crate's contract used by lib.rs: `Builder::take_buffer`
  produces a buffer from which `Reader::get_root` recovers the built root,
  and `get_root` fails on an empty buffer.
* `serde_json::to_string` / `serde_json::from_str` are external library
  calls; they are embedded as an executable JSON printer and parser over
  the value model (float literals are carried exactly as rationals).
-/

/-! ## 64-bit numeric model -/

/-- Maximum value of a signed 64-bit integer. -/
def i64Max : Nat := 2 ^ 63 - 1

/-- Number of bits of `n`, with bounded fuel so that it reduces in the kernel. -/
def bitLenAux : Nat → Nat → Nat
  | 0, _ => 0
  | fuel + 1, n => if n = 0 then 0 else bitLenAux fuel (n / 2) + 1

/-- Number of binary digits of `n`. -/
def bitLen (n : Nat) : Nat := bitLenAux n n

/-- Round `n` to 53 significant bits, ties to even: the value of the IEEE-754
round-to-nearest conversion of an unsigned integer below `2^64` to a double. -/
def roundSig53 (n : Nat) : Nat :=
  let k := bitLen n
  if k ≤ 53 then n
  else
    let s := k - 53
    let q := n / 2 ^ s
    let r := n % 2 ^ s
    let half := 2 ^ (s - 1)
    let q2 := if half < r || (r == half && q % 2 == 1) then q + 1 else q
    q2 * 2 ^ s

/-- Value denoted by the Rust cast `n as f64` for `n : u64`. -/
def u64ToF64 (n : Nat) : ℚ := (roundSig53 n : ℚ)

/-- Value denoted by the Rust cast `i as f64` for `i : i64`. -/
def i64ToF64 (i : Int) : ℚ :=
  if 0 ≤ i then (roundSig53 i.toNat : ℚ) else -(roundSig53 (-i).toNat : ℚ)

/-- A 64-bit float: a finite value (the rational it denotes) or one of the
non-finite payloads. -/
inductive F64 where
  | finite (q : ℚ)
  | nan
  | inf
  | negInf
deriving DecidableEq

/-- `serde_json::Number` (the internal `N` enum). `posInt` holds a `u64`,
`negInt` a negative `i64`, `float` a finite `f64`. -/
inductive JNum where
  | posInt (n : Nat)
  | negInt (i : Int)
  | float (q : ℚ)
deriving DecidableEq

/-- `serde_json::Number::as_i64`: `PosInt` succeeds when within `i64` range,
`NegInt` always succeeds, `Float` never does. -/
def jNumAsI64 : JNum → Option Int
  | .posInt n => if n ≤ i64Max then some (n : Int) else none
  | .negInt i => some i
  | .float _ => none

/-- `serde_json::Number::as_f64`: total, casts integers to the nearest double. -/
def jNumAsF64 : JNum → Option ℚ
  | .posInt n => some (u64ToF64 n)
  | .negInt i => some (i64ToF64 i)
  | .float q => some q

/-- `impl From<i64> for serde_json::Number`: negative values become `NegInt`,
non-negative ones `PosInt`. -/
def jNumOfI64 (i : Int) : JNum :=
  if i < 0 then .negInt i else .posInt i.toNat

/-- `serde_json::Number::from_f64`: rejects non-finite doubles. -/
def jNumFromF64 : F64 → Option JNum
  | .finite q => some (.float q)
  | .nan => none
  | .inf => none
  | .negInf => none

/-! ## Dynamic value model (`serde_json::Value`) -/

/-- `serde_json::Value`.  Objects are embedded as association lists; the
default `serde_json::Map` is a `BTreeMap`, i.e. sorted by key with unique
keys, which the `objInsert` operation below maintains. -/
inductive Value where
  | null
  | bool (b : Bool)
  | number (n : JNum)
  | str (s : String)
  | arr (xs : List Value)
  | obj (entries : List (String × Value))

/-- `BTreeMap::insert` on a sorted association list: place the key at its
ordered position, replacing an existing binding. -/
def objInsert (k : String) (v : Value) : List (String × Value) → List (String × Value)
  | [] => [(k, v)]
  | (k2, v2) :: rest =>
    if k < k2 then (k, v) :: (k2, v2) :: rest
    else if k = k2 then (k, v) :: rest
    else (k2, v2) :: objInsert k v rest

/-! ## Flexbuffer node model -/

/-- A flexbuffer node tree, one constructor per tag group that
`deserialize_value` dispatches on.  The sixteen vector sub-variants of
`FlexBufferType` all decode through the same `as_vector` loop and are
collapsed into `vector`; `map` pairs each key of the keys vector with the
value at the same index. -/
inductive FlexNode where
  | null
  | bool (b : Bool)
  | int (i : Int)
  | uint (n : Nat)
  | float (f : F64)
  | string (s : String)
  | key (s : String)
  | blob (bs : List Nat)
  | indirectInt (i : Int)
  | indirectUInt (n : Nat)
  | indirectFloat (f : F64)
  | vector (es : List FlexNode)
  | map (entries : List (String × FlexNode))

/-- Debug name of the node's `FlexBufferType` tag, as interpolated into the
`Unsupported flexbuffer type` message. -/
def tagName : FlexNode → String
  | .null => "Null"
  | .bool _ => "Bool"
  | .int _ => "Int"
  | .uint _ => "UInt"
  | .float _ => "Float"
  | .string _ => "String"
  | .key _ => "Key"
  | .blob _ => "Blob"
  | .indirectInt _ => "IndirectInt"
  | .indirectUInt _ => "IndirectUInt"
  | .indirectFloat _ => "IndirectFloat"
  | .vector _ => "Vector"
  | .map _ => "Map"

/-- The tags outside the set handled by `deserialize_value`
(lib.rs lines 199-203 reject exactly these). -/
def isUnsupportedTag : FlexNode → Bool
  | .key _ => true
  | .blob _ => true
  | .indirectInt _ => true
  | .indirectUInt _ => true
  | .indirectFloat _ => true
  | _ => false

/-- `flexbuffers::Reader::as_i64` applied to an Int or UInt node: an Int is
read directly and a UInt is read as `u64` and cast with Rusts wrapping
`as i64` semantics. -/
def u64AsI64 (n : Nat) : Int :=
  if n < 2 ^ 63 then (n : Int) else (n : Int) - 2 ^ 64

/-! ## napi error model -/

/-- `napi::Status` values used by lib.rs. -/
inductive NapiStatus where
  | invalidArg
  | genericFailure
deriving DecidableEq

/-- `napi::Error`: a status and a reason string. -/
structure NapiError where
  status : NapiStatus
  reason : String
deriving DecidableEq

/-- The error built at lib.rs lines 199-203 for an unsupported tag. -/
def unsupportedErr (n : FlexNode) : NapiError :=
  ⟨.genericFailure, "Unsupported flexbuffer type: " ++ tagName n⟩

/-! ## JSON text model (`serde_json::to_string` and `serde_json::from_str`)

The encoder flattens nested containers to JSON text (lib.rs lines 90-97 and
116-121) and the decoder re-parses String nodes as JSON (lines 143-154).
Both library calls are embedded executably below. -/

/-- The double-quote character. -/
def quoteCh : Char := Char.ofNat 34

/-- The backslash character. -/
def backslashCh : Char := Char.ofNat 92

/-- Lower-case hexadecimal digit. -/
def hexDigitCh (n : Nat) : Char :=
  if n < 10 then Char.ofNat (48 + n) else Char.ofNat (87 + n)

/-- JSON escaping of one character, following the serde_json writer: quote and
backslash are escaped, control characters use the short escapes or `\u00xx`. -/
def escapeJsonChar (c : Char) : List Char :=
  if c = quoteCh then [backslashCh, quoteCh]
  else if c = backslashCh then [backslashCh, backslashCh]
  else if c.toNat = 8 then [backslashCh, 'b']
  else if c.toNat = 12 then [backslashCh, 'f']
  else if c.toNat = 10 then [backslashCh, 'n']
  else if c.toNat = 13 then [backslashCh, 'r']
  else if c.toNat = 9 then [backslashCh, 't']
  else if c.toNat < 32 then
    [backslashCh, 'u', '0', '0', hexDigitCh (c.toNat / 16), hexDigitCh (c.toNat % 16)]
  else [c]

/-- JSON string literal for `s`. -/
def escapeJsonString (s : String) : String :=
  String.mk (quoteCh :: s.data.foldr (fun c acc => escapeJsonChar c ++ acc) [quoteCh])

/-- Drop trailing zero digits, keeping at least one digit. -/
def dropTrailingZeros (cs : List Char) : List Char :=
  let r := (cs.reverse.dropWhile (fun c => c == '0')).reverse
  if r.isEmpty then ['0'] else r

/-- Left-pad with zero digits to the given width. -/
def padZeros (width : Nat) (cs : List Char) : List Char :=
  List.replicate (width - cs.length) '0' ++ cs

/-- Decimal rendering of a float value.  The real writer uses the shortest
round-tripping decimal (ryu); this model prints integral values with a
trailing `.0` as ryu does and other values with up to 17 fractional digits.
No claim depends on the exact text. -/
def ratToDecimalString (q : ℚ) : String :=
  if q.den = 1 then toString q.num ++ ".0"
  else
    let sgn := if q < 0 then "-" else ""
    let a := |q|
    let ip : Nat := a.floor.toNat
    let fracPart : Nat := ((a - a.floor) * 10 ^ 17).floor.toNat
    let fs := dropTrailingZeros (padZeros 17 (toString fracPart).data)
    sgn ++ toString ip ++ "." ++ String.mk fs

mutual

/-- `serde_json::to_string` on a `Value`: total (object keys are strings and
all stored floats are finite, so serialization cannot fail). -/
def jsonToString : Value → String
  | .null => "null"
  | .bool b => if b then "true" else "false"
  | .number (.posInt n) => toString n
  | .number (.negInt i) => toString i
  | .number (.float q) => ratToDecimalString q
  | .str s => escapeJsonString s
  | .arr xs => "[" ++ jsonToStringElems xs ++ "]"
  | .obj es => "\x7b" ++ jsonToStringMembers es ++ "\x7d"

/-- Comma-joined rendering of array elements. -/
def jsonToStringElems : List Value → String
  | [] => ""
  | x :: rest =>
    jsonToString x ++ (if rest.isEmpty then "" else ",") ++ jsonToStringElems rest

/-- Comma-joined rendering of object members. -/
def jsonToStringMembers : List (String × Value) → String
  | [] => ""
  | (k, v) :: rest =>
    escapeJsonString k ++ ":" ++ jsonToString v ++
      (if rest.isEmpty then "" else ",") ++ jsonToStringMembers rest

end

/-- JSON whitespace. -/
def isWs (c : Char) : Bool :=
  c = ' ' || c.toNat = 9 || c.toNat = 10 || c.toNat = 13

/-- Skip leading JSON whitespace. -/
def skipWs : List Char → List Char
  | [] => []
  | c :: cs => if isWs c then skipWs cs else c :: cs

/-- ASCII decimal digit. -/
def isDigitCh (c : Char) : Bool := 48 ≤ c.toNat && c.toNat ≤ 57

/-- Decimal digits to a natural number, accumulator style. -/
def digitsToNat : List Char → Nat → Nat
  | [], acc => acc
  | c :: cs, acc => digitsToNat cs (acc * 10 + (c.toNat - 48))

/-- Hexadecimal digit value. -/
def hexVal (c : Char) : Option Nat :=
  if 48 ≤ c.toNat && c.toNat ≤ 57 then some (c.toNat - 48)
  else if 97 ≤ c.toNat && c.toNat ≤ 102 then some (c.toNat - 87)
  else if 65 ≤ c.toNat && c.toNat ≤ 70 then some (c.toNat - 55)
  else none

/-- Parse the body of a JSON string literal (after the opening quote),
returning the content and the input after the closing quote. -/
def parseStringChars : Nat → List Char → Option (List Char × List Char)
  | 0, _ => none
  | _ + 1, [] => none
  | fuel + 1, c :: cs =>
    if c = quoteCh then some ([], cs)
    else if c = backslashCh then
      match cs with
      | [] => none
      | e :: cs2 =>
        if e = quoteCh then (parseStringChars fuel cs2).map (fun p => (quoteCh :: p.1, p.2))
        else if e = backslashCh then (parseStringChars fuel cs2).map (fun p => (backslashCh :: p.1, p.2))
        else if e = '/' then (parseStringChars fuel cs2).map (fun p => ('/' :: p.1, p.2))
        else if e = 'b' then (parseStringChars fuel cs2).map (fun p => (Char.ofNat 8 :: p.1, p.2))
        else if e = 'f' then (parseStringChars fuel cs2).map (fun p => (Char.ofNat 12 :: p.1, p.2))
        else if e = 'n' then (parseStringChars fuel cs2).map (fun p => (Char.ofNat 10 :: p.1, p.2))
        else if e = 'r' then (parseStringChars fuel cs2).map (fun p => (Char.ofNat 13 :: p.1, p.2))
        else if e = 't' then (parseStringChars fuel cs2).map (fun p => (Char.ofNat 9 :: p.1, p.2))
        else if e = 'u' then
          match cs2 with
          | h1 :: h2 :: h3 :: h4 :: cs3 =>
            match hexVal h1, hexVal h2, hexVal h3, hexVal h4 with
            | some v1, some v2, some v3, some v4 =>
              (parseStringChars fuel cs3).map
                (fun p => (Char.ofNat (((v1 * 16 + v2) * 16 + v3) * 16 + v4) :: p.1, p.2))
            | _, _, _, _ => none
          | _ => none
        else none
    else (parseStringChars fuel cs).map (fun p => (c :: p.1, p.2))

/-- Parse a JSON number literal, following serde_json: an integer literal in
`u64` range becomes `PosInt`, a negative one in `i64` range becomes the
integer form, and anything else (fraction, exponent, or overflow) falls back
to a float.  The float value is kept as an exact rational; the real parser
rounds it to the nearest `f64`. -/
def parseJsonNumber (cs : List Char) : Option (JNum × List Char) :=
  let (neg, cs1) :=
    match cs with
    | c :: rest => if c = '-' then (true, rest) else (false, cs)
    | [] => (false, ([] : List Char))
  let ds := cs1.takeWhile isDigitCh
  let cs2 := cs1.dropWhile isDigitCh
  if ds.isEmpty then none
  else if 1 < ds.length ∧ ds.headD ' ' = '0' then none
  else
    let ip := digitsToNat ds 0
    let (hasFrac, fds, cs3) :=
      match cs2 with
      | c :: rest =>
        if c = '.' then (true, rest.takeWhile isDigitCh, rest.dropWhile isDigitCh)
        else (false, ([] : List Char), cs2)
      | [] => (false, ([] : List Char), cs2)
    if hasFrac ∧ fds.isEmpty then none
    else
      let expPart : Option (Bool × Bool × Nat × List Char) :=
        match cs3 with
        | c :: rest =>
          if c = 'e' || c = 'E' then
            let (esign, rest2) :=
              match rest with
              | c2 :: r2 =>
                if c2 = '+' then (false, r2)
                else if c2 = '-' then (true, r2)
                else (false, rest)
              | [] => (false, rest)
            let eds := rest2.takeWhile isDigitCh
            if eds.isEmpty then none
            else some (true, esign, digitsToNat eds 0, rest2.dropWhile isDigitCh)
          else some (false, false, 0, cs3)
        | [] => some (false, false, 0, cs3)
      match expPart with
      | none => none
      | some (hasExp, esign, expVal, cs4) =>
        if hasFrac = false ∧ hasExp = false then
          if neg then
            if ip ≤ 2 ^ 63 then some (jNumOfI64 (-(ip : Int)), cs4)
            else some (.float (-(roundSig53 ip : ℚ)), cs4)
          else
            if ip ≤ 2 ^ 64 - 1 then some (.posInt ip, cs4)
            else some (.float (roundSig53 ip : ℚ), cs4)
        else
          let mantissa : ℚ := (ip : ℚ) + (digitsToNat fds 0 : ℚ) / 10 ^ fds.length
          let scaled : ℚ := if esign then mantissa / 10 ^ expVal else mantissa * 10 ^ expVal
          some (.float (if neg then -scaled else scaled), cs4)

mutual

/-- Parse one JSON value. -/
def parseJsonValue : Nat → List Char → Option (Value × List Char)
  | 0, _ => none
  | fuel + 1, cs =>
    match skipWs cs with
    | [] => none
    | c :: rest =>
      if c = 'n' then
        match rest with
        | c1 :: c2 :: c3 :: r =>
          if c1 = 'u' ∧ c2 = 'l' ∧ c3 = 'l' then some (.null, r) else none
        | _ => none
      else if c = 't' then
        match rest with
        | c1 :: c2 :: c3 :: r =>
          if c1 = 'r' ∧ c2 = 'u' ∧ c3 = 'e' then some (.bool true, r) else none
        | _ => none
      else if c = 'f' then
        match rest with
        | c1 :: c2 :: c3 :: c4 :: r =>
          if c1 = 'a' ∧ c2 = 'l' ∧ c3 = 's' ∧ c4 = 'e' then some (.bool false, r) else none
        | _ => none
      else if c = quoteCh then
        (parseStringChars (rest.length + 1) rest).map (fun p => (.str (String.mk p.1), p.2))
      else if c = '[' then
        match skipWs rest with
        | c2 :: r2 =>
          if c2 = ']' then some (.arr [], r2)
          else (parseJsonElems fuel (skipWs rest)).map (fun p => (.arr p.1, p.2))
        | [] => none
      else if c.toNat = 123 then
        match skipWs rest with
        | c2 :: r2 =>
          if c2.toNat = 125 then some (.obj [], r2)
          else
            (parseJsonMembers fuel (skipWs rest)).map
              (fun p => (.obj (p.1.foldl (fun acc kv => objInsert kv.1 kv.2 acc) []), p.2))
        | [] => none
      else if c = '-' || isDigitCh c then
        (parseJsonNumber (c :: rest)).map (fun p => (.number p.1, p.2))
      else none

/-- Parse the elements of a non-empty JSON array, consuming the closing
bracket. -/
def parseJsonElems : Nat → List Char → Option (List Value × List Char)
  | 0, _ => none
  | fuel + 1, cs =>
    match parseJsonValue fuel cs with
    | none => none
    | some (v, rest) =>
      match skipWs rest with
      | c :: r2 =>
        if c = ',' then
          match parseJsonElems fuel r2 with
          | some (vs, r3) => some (v :: vs, r3)
          | none => none
        else if c = ']' then some ([v], r2)
        else none
      | [] => none

/-- Parse the members of a non-empty JSON object, consuming the closing
brace; members are returned in source order. -/
def parseJsonMembers : Nat → List Char → Option (List (String × Value) × List Char)
  | 0, _ => none
  | fuel + 1, cs =>
    match skipWs cs with
    | c :: rest =>
      if c = quoteCh then
        match parseStringChars (rest.length + 1) rest with
        | some (kcs, r1) =>
          match skipWs r1 with
          | c2 :: r2 =>
            if c2 = ':' then
              match parseJsonValue fuel r2 with
              | some (v, r3) =>
                match skipWs r3 with
                | c3 :: r4 =>
                  if c3 = ',' then
                    match parseJsonMembers fuel r4 with
                    | some (ms, r5) => some ((String.mk kcs, v) :: ms, r5)
                    | none => none
                  else if c3.toNat = 125 then some ([(String.mk kcs, v)], r4)
                  else none
                | [] => none
              | none => none
            else none
          | [] => none
        | none => none
      else none
    | [] => none

end

/-- `serde_json::from_str::<Value>`: parse one value and require only
whitespace to follow. -/
def jsonFromStr (s : String) : Except String Value :=
  let cs := s.data
  match parseJsonValue (2 * cs.length + 2) cs with
  | some (v, rest) =>
    if (skipWs rest).isEmpty then .ok v else .error "trailing characters"
  | none => .error "expected value"

/-! ## Wire model of the external flexbuffers builder and reader

The byte-level format is owned by the `flexbuffers` crate (spec §1, §6).
Buffers are embedded as lists of wire atoms; `encNode` plays the role of
building a node with `Builder` and taking its buffer, and `getRoot` the role
of `flexbuffers::Reader::get_root`, an executable parser that validates a
buffer and recovers its root node (failing on an empty buffer). -/

/-- One wire atom of the modelled buffer. -/
inductive BByte where
  | tag (t : Nat)
  | nat (n : Nat)
  | int (i : Int)
  | str (s : String)
  | rat (q : ℚ)
deriving DecidableEq

/-- Wire atoms of a float payload. -/
def encF64 : F64 → List BByte
  | .finite q => [.nat 0, .rat q]
  | .nan => [.nat 1]
  | .inf => [.nat 2]
  | .negInf => [.nat 3]

mutual

/-- Serialize a node tree to the wire. -/
def encNode : FlexNode → List BByte
  | .null => [.tag 0]
  | .bool b => [.tag 1, .nat (if b then 1 else 0)]
  | .int i => [.tag 2, .int i]
  | .uint n => [.tag 3, .nat n]
  | .float f => .tag 4 :: encF64 f
  | .string s => [.tag 5, .str s]
  | .key s => [.tag 6, .str s]
  | .blob bs => .tag 7 :: .nat bs.length :: bs.map .nat
  | .indirectInt i => [.tag 8, .int i]
  | .indirectUInt n => [.tag 9, .nat n]
  | .indirectFloat f => .tag 10 :: encF64 f
  | .vector es => .tag 11 :: .nat es.length :: encList es
  | .map es => .tag 12 :: .nat es.length :: encEntries es

/-- Serialize vector elements. -/
def encList : List FlexNode → List BByte
  | [] => []
  | e :: es => encNode e ++ encList es

/-- Serialize map entries: each key atom is followed by its value's nodes. -/
def encEntries : List (String × FlexNode) → List BByte
  | [] => []
  | (k, v) :: es => .str k :: (encNode v ++ encEntries es)

end

/-- Read a float payload from the wire. -/
def parseF64 : List BByte → Option (F64 × List BByte)
  | .nat 0 :: .rat q :: r => some (.finite q, r)
  | .nat 1 :: r => some (.nan, r)
  | .nat 2 :: r => some (.inf, r)
  | .nat 3 :: r => some (.negInf, r)
  | _ => none

/-- Read `k` nat atoms from the wire. -/
def takeNats : Nat → List BByte → Option (List Nat × List BByte)
  | 0, r => some ([], r)
  | k + 1, .nat n :: r => (takeNats k r).map (fun p => (n :: p.1, p.2))
  | _ + 1, _ => none

/-- Read a bool payload. -/
def parseBoolP : List BByte → Option (FlexNode × List BByte)
  | .nat v :: r => some (.bool (v == 1), r)
  | _ => none

/-- Read an int payload. -/
def parseIntP : List BByte → Option (FlexNode × List BByte)
  | .int i :: r => some (.int i, r)
  | _ => none

/-- Read a uint payload. -/
def parseUIntP : List BByte → Option (FlexNode × List BByte)
  | .nat n :: r => some (.uint n, r)
  | _ => none

/-- Read a float node payload. -/
def parseFloatP (r : List BByte) : Option (FlexNode × List BByte) :=
  (parseF64 r).map (fun p => (.float p.1, p.2))

/-- Read a string payload. -/
def parseStringP : List BByte → Option (FlexNode × List BByte)
  | .str s :: r => some (.string s, r)
  | _ => none

/-- Read a key payload. -/
def parseKeyP : List BByte → Option (FlexNode × List BByte)
  | .str s :: r => some (.key s, r)
  | _ => none

/-- Read a blob payload. -/
def parseBlobP : List BByte → Option (FlexNode × List BByte)
  | .nat len :: r => (takeNats len r).map (fun p => (.blob p.1, p.2))
  | _ => none

/-- Read an indirect-int payload. -/
def parseIndIntP : List BByte → Option (FlexNode × List BByte)
  | .int i :: r => some (.indirectInt i, r)
  | _ => none

/-- Read an indirect-uint payload. -/
def parseIndUIntP : List BByte → Option (FlexNode × List BByte)
  | .nat n :: r => some (.indirectUInt n, r)
  | _ => none

/-- Read an indirect-float payload. -/
def parseIndFloatP (r : List BByte) : Option (FlexNode × List BByte) :=
  (parseF64 r).map (fun p => (.indirectFloat p.1, p.2))

/-- Dispatch a scalar tag to its payload reader. -/
def parseScalarTag (t : Nat) (r : List BByte) : Option (FlexNode × List BByte) :=
  if t = 0 then some (.null, r)
  else if t = 1 then parseBoolP r
  else if t = 2 then parseIntP r
  else if t = 3 then parseUIntP r
  else if t = 4 then parseFloatP r
  else if t = 5 then parseStringP r
  else if t = 6 then parseKeyP r
  else if t = 7 then parseBlobP r
  else if t = 8 then parseIndIntP r
  else if t = 9 then parseIndUIntP r
  else if t = 10 then parseIndFloatP r
  else none

/-- Parse `k` vector elements with the given node parser. -/
def parseNodesWith (p : List BByte → Option (FlexNode × List BByte)) :
    Nat → List BByte → Option (List FlexNode × List BByte)
  | 0, r => some ([], r)
  | k + 1, r =>
    match p r with
    | some (n, r2) => (parseNodesWith p k r2).map (fun q => (n :: q.1, q.2))
    | none => none

/-- Parse `k` map entries with the given node parser. -/
def parseEntriesWith (p : List BByte → Option (FlexNode × List BByte)) :
    Nat → List BByte → Option (List (String × FlexNode) × List BByte)
  | 0, r => some ([], r)
  | k + 1, .str key :: r1 =>
    match p r1 with
    | some (n, r2) => (parseEntriesWith p k r2).map (fun q => ((key, n) :: q.1, q.2))
    | none => none
  | _ + 1, _ => none

/-- Parse one node from the wire, with fuel bounding the nesting depth. -/
def parseNode : Nat → List BByte → Option (FlexNode × List BByte)
  | 0, _ => none
  | fuel + 1, .tag t :: r =>
    if t = 11 then
      match r with
      | .nat k :: r2 => (parseNodesWith (parseNode fuel) k r2).map (fun p => (.vector p.1, p.2))
      | _ => none
    else if t = 12 then
      match r with
      | .nat k :: r2 => (parseEntriesWith (parseNode fuel) k r2).map (fun p => (.map p.1, p.2))
      | _ => none
    else parseScalarTag t r
  | _ + 1, _ => none

/-- `flexbuffers::Reader::get_root`: locate and validate the root node of a
buffer.  Fails on an empty buffer and on any stream that is not a valid
node. -/
def getRoot (b : List BByte) : Except String FlexNode :=
  match parseNode b.length b with
  | some (n, _) => .ok n
  | none => .error "failed to locate root"

/-! ## The encoder (`FlexBuffer::serialize_value`, lib.rs lines 56-128) -/

/-- Insert one entry into a key-sorted entry list, keeping insertion order
among equal keys. -/
def insSortedEntry (kv : String × FlexNode) : List (String × FlexNode) → List (String × FlexNode)
  | [] => [kv]
  | kv2 :: rest =>
    if kv2.1 < kv.1 then kv2 :: insSortedEntry kv rest else kv :: kv2 :: rest

/-- `MapBuilder::end_map` of the flexbuffers builder sorts the pushed
entries by key. -/
def sortEntries (es : List (String × FlexNode)) : List (String × FlexNode) :=
  es.foldr insSortedEntry []

/-- The nodes pushed for one array element (lib.rs lines 79-98): scalars are
pushed natively; a `Number` with neither `as_i64` nor `as_f64` form is
silently skipped (the `if`/`else if` at lines 82-88 has no `else`); a nested
`Array`/`Object` is flattened to its JSON text and pushed as a string. -/
def pushElem (item : Value) : List FlexNode :=
  match item with
  | .null => [.null]
  | .bool b => [.bool b]
  | .number n =>
    match jNumAsI64 n with
    | some i => [.int i]
    | none =>
      match jNumAsF64 n with
      | some f => [.float (.finite f)]
      | none => []
  | .str s => [.string s]
  | .arr xs => [.string (jsonToString (.arr xs))]
  | .obj es => [.string (jsonToString (.obj es))]

/-- The entries pushed for one object member (lib.rs lines 105-122), with the
same per-kind policy as `pushElem`. -/
def pushEntry (kv : String × Value) : List (String × FlexNode) :=
  (pushElem kv.2).map (fun n => (kv.1, n))

/-- `FlexBuffer::serialize_value`: build the root node for a value.  The
function never recurses: container elements are handled inline, nested
containers via their JSON text.  The only error path is a top-level `Number`
with neither integer nor float form (lib.rs line 70). -/
def serialize_value : Value → Except NapiError FlexNode
  | .null => .ok .null
  | .bool b => .ok (.bool b)
  | .number n =>
    match jNumAsI64 n with
    | some i => .ok (.int i)
    | none =>
      match jNumAsF64 n with
      | some f => .ok (.float (.finite f))
      | none => .error ⟨.invalidArg, "Invalid number"⟩
  | .str s => .ok (.string s)
  | .arr items => .ok (.vector (items.foldr (fun it acc => pushElem it ++ acc) []))
  | .obj entries =>
    .ok (.map (sortEntries (entries.foldr (fun kv acc => pushEntry kv ++ acc) [])))

/-! ## The decoder (`FlexBuffer::deserialize_value`, lib.rs lines 130-204) -/

mutual

/-- `FlexBuffer::deserialize_value`: reconstruct a `Value` from a node. -/
def deserialize_value : FlexNode → Except NapiError Value
  | .null => .ok .null
  | .bool b => .ok (.bool b)
  | .int i => .ok (.number (jNumOfI64 i))
  | .uint n => .ok (.number (jNumOfI64 (u64AsI64 n)))
  | .float f => .ok (.number ((jNumFromF64 f).getD (jNumOfI64 0)))
  | .string s =>
    match jsonFromStr s with
    | .ok (.str _) => .ok (.str s)
    | .ok other => .ok other
    | .error _ => .ok (.str s)
  | .vector es => .ok (.arr (deserializeItems es))
  | .map es => .ok (.obj (deserializeEntries es []))
  | .key s => .error (unsupportedErr (.key s))
  | .blob bs => .error (unsupportedErr (.blob bs))
  | .indirectInt i => .error (unsupportedErr (.indirectInt i))
  | .indirectUInt n => .error (unsupportedErr (.indirectUInt n))
  | .indirectFloat f => .error (unsupportedErr (.indirectFloat f))

/-- The vector loop (lib.rs lines 171-180): decode each element, pushing
successes and skipping failures. -/
def deserializeItems : List FlexNode → List Value
  | [] => []
  | e :: es =>
    match deserialize_value e with
    | .ok v => v :: deserializeItems es
    | .error _ => deserializeItems es

/-- The map loop (lib.rs lines 182-197): decode each entry value, inserting
successes into the object and skipping failures. -/
def deserializeEntries : List (String × FlexNode) → List (String × Value) → List (String × Value)
  | [], obj => obj
  | (k, nd) :: rest, obj =>
    match deserialize_value nd with
    | .ok v => deserializeEntries rest (objInsert k v obj)
    | .error _ => deserializeEntries rest obj

end

/-! ## The container (`FlexBuffer`, lib.rs lines 5-54) and free functions -/

/-- The `FlexBuffer` napi class: owns one buffer. -/
structure FlexBuffer where
  data : List BByte
deriving DecidableEq

/-- `FlexBuffer::new`: empty buffer, no validation. -/
def FlexBuffer.new : FlexBuffer := ⟨[]⟩

/-- `FlexBuffer::serialize` (`&mut self`): build a node for the value and
replace the stored bytes with the builder's buffer; on error the container
is left untouched and the error is propagated.  The returned pair is the
container state after the call together with the `Result<()>`. -/
def FlexBuffer.serialize (fb : FlexBuffer) (value : Value) :
    FlexBuffer × Except NapiError Unit :=
  match serialize_value value with
  | .ok node => (⟨encNode node⟩, .ok ())
  | .error e => (fb, .error e)

/-- `FlexBuffer::deserialize`: `EmptyBuffer` on no stored bytes, then root
lookup, then `deserialize_value`. -/
def FlexBuffer.deserialize (fb : FlexBuffer) : Except NapiError Value :=
  if fb.data.isEmpty then .error ⟨.invalidArg, "Buffer is empty"⟩
  else
    match getRoot fb.data with
    | .error e => .error ⟨.genericFailure, e⟩
    | .ok root => deserialize_value root

/-- `FlexBuffer::get_buffer`: a copy of the stored bytes. -/
def FlexBuffer.get_buffer (fb : FlexBuffer) : List BByte := fb.data

/-- `FlexBuffer::from_buffer`: validate that a root can be located, then wrap
the bytes without re-encoding. -/
def FlexBuffer.from_buffer (buffer : List BByte) : Except NapiError FlexBuffer :=
  match getRoot buffer with
  | .error e => .error ⟨.invalidArg, "Invalid flexbuffer: " ++ e⟩
  | .ok _ => .ok ⟨buffer⟩

/-- `FlexBuffer::size`: the stored byte count cast `as u32`. -/
def FlexBuffer.size (fb : FlexBuffer) : Nat := fb.data.length % 2 ^ 32

/-- Free function `serialize` (lib.rs lines 207-212). -/
def serialize (value : Value) : Except NapiError (List BByte) :=
  match FlexBuffer.new.serialize value with
  | (fb, .ok _) => .ok fb.get_buffer
  | (_, .error e) => .error e

/-- Free function `deserialize` (lib.rs lines 214-218). -/
def deserialize (buffer : List BByte) : Except NapiError Value :=
  match FlexBuffer.from_buffer buffer with
  | .ok fb => fb.deserialize
  | .error e => .error e

/-- Free function `is_valid_flexbuffer` (lib.rs lines 220-223). -/
def is_valid_flexbuffer (buffer : List BByte) : Bool :=
  match getRoot buffer with
  | .ok _ => true
  | .error _ => false

/-! ## Claim-level predicates and inputs -/

/-- Exact representability of an integer value as a signed 64-bit integer. -/
def exactI64Rep (x : Int) : Bool := decide (-(2 ^ 63) ≤ x ∧ x < 2 ^ 63)

/-- Exact representability of an integer value as a 64-bit float: its
magnitude must survive rounding to 53 significant bits (values of `u64` size
never overflow the f64 exponent range). -/
def exactF64Rep (x : Int) : Bool := roundSig53 x.natAbs == x.natAbs

/-- The scalar values for which the round-trip law holds: no containers; a
`Number` either within signed 64-bit range (serde keeps negative integers in
`NegInt`, so the stored integer is negative) or already in float form; a
`String` whose text does not parse as a non-string JSON value. -/
def scalarRoundTrippable : Value → Bool
  | .null => true
  | .bool _ => true
  | .number (.posInt n) => decide (n ≤ i64Max)
  | .number (.negInt i) => decide (i < 0)
  | .number (.float _) => true
  | .str s =>
    match jsonFromStr s with
    | .ok (.str _) => true
    | .ok _ => false
    | .error _ => true
  | .arr _ => false
  | .obj _ => false

/-- A vector node nested to depth `d`. -/
def nestVec : Nat → FlexNode
  | 0 => .null
  | d + 1 => .vector [nestVec d]

/-- The array value that decoding `nestVec d` produces. -/
def nestArr : Nat → Value
  | 0 => .null
  | d + 1 => .arr [nestArr d]

/-! ## Wire lemmas: the builder/reader contract -/

/-- A float payload is at least one atom. -/
theorem encF64_length_pos (f : F64) : 0 < (encF64 f).length := by
  cases f <;> simp [encF64]

/-- A built buffer is never empty. -/
theorem encNode_length_pos (n : FlexNode) : 0 < (encNode n).length := by
  cases n <;> simp [encNode]

/-- Reading back a run of nat atoms. -/
theorem takeNats_encBytes (bs : List Nat) (r : List BByte) :
    takeNats bs.length (bs.map BByte.nat ++ r) = some (bs, r) := by
  induction bs with
  | nil => simp [takeNats]
  | cons b bs ih => simp [takeNats, ih]

/-- Reading back a float payload. -/
theorem parseF64_encF64 (f : F64) (r : List BByte) :
    parseF64 (encF64 f ++ r) = some (f, r) := by
  cases f <;> simp [encF64, parseF64]

/-- A member's encoding is no longer than the whole element list's. -/
theorem encNode_length_le_encList (e : FlexNode) (es : List FlexNode) (he : e ∈ es) :
    (encNode e).length ≤ (encList es).length := by
  induction es with
  | nil => cases he
  | cons x xs ih =>
    rcases List.mem_cons.mp he with h | h
    · subst h; simp [encList]
    · have := ih h
      simp [encList]
      omega

/-- An entry value's encoding is no longer than the whole entry list's. -/
theorem encNode_length_le_encEntries (kv : String × FlexNode)
    (es : List (String × FlexNode)) (he : kv ∈ es) :
    (encNode kv.2).length ≤ (encEntries es).length := by
  induction es with
  | nil => cases he
  | cons x xs ih =>
    obtain ⟨k, v⟩ := x
    rcases List.mem_cons.mp he with h | h
    · subst h
      simp [encEntries]
      omega
    · have := ih h
      simp [encEntries]
      omega

/-- Reading back serialized vector elements, given a parser that inverts the
builder on every member. -/
theorem parseNodesWith_encList (p : List BByte → Option (FlexNode × List BByte))
    (es : List FlexNode) (hp : ∀ e ∈ es, ∀ r, p (encNode e ++ r) = some (e, r)) :
    ∀ r, parseNodesWith p es.length (encList es ++ r) = some (es, r) := by
  induction es with
  | nil => intro r; simp [encList, parseNodesWith]
  | cons e es ih =>
    intro r
    have hpe := hp e (by simp) (encList es ++ r)
    have ihe := ih (fun x hx r2 => hp x (by simp [hx]) r2) r
    simp [encList, parseNodesWith, List.append_assoc, hpe, ihe]

/-- Reading back serialized map entries, given a parser that inverts the
builder on every entry value. -/
theorem parseEntriesWith_encEntries (p : List BByte → Option (FlexNode × List BByte))
    (es : List (String × FlexNode))
    (hp : ∀ kv ∈ es, ∀ r, p (encNode kv.2 ++ r) = some (kv.2, r)) :
    ∀ r, parseEntriesWith p es.length (encEntries es ++ r) = some (es, r) := by
  induction es with
  | nil => intro r; simp [encEntries, parseEntriesWith]
  | cons kv es ih =>
    obtain ⟨k, v⟩ := kv
    intro r
    have hpe := hp (k, v) (by simp) (encEntries es ++ r)
    have ihe := ih (fun x hx r2 => hp x (by simp [hx]) r2) r
    simp [encEntries, parseEntriesWith, List.append_assoc, hpe, ihe]

/-- The reader is a left inverse of the builder once the fuel covers the
buffer. -/
theorem parseNode_encNode : ∀ fuel n r, (encNode n).length ≤ fuel →
    parseNode fuel (encNode n ++ r) = some (n, r) := by
  intro fuel
  induction fuel with
  | zero =>
    intro n r h
    have := encNode_length_pos n
    omega
  | succ f ih =>
    intro n r h
    cases n with
    | null => simp [encNode, parseNode, parseScalarTag]
    | bool b => cases b <;> simp [encNode, parseNode, parseScalarTag, parseBoolP]
    | int i => simp [encNode, parseNode, parseScalarTag, parseIntP]
    | uint nn => simp [encNode, parseNode, parseScalarTag, parseUIntP]
    | float fl =>
      simp [encNode, parseNode, parseScalarTag, parseFloatP, parseF64_encF64]
    | string s => simp [encNode, parseNode, parseScalarTag, parseStringP]
    | key s => simp [encNode, parseNode, parseScalarTag, parseKeyP]
    | blob bs =>
      simp [encNode, parseNode, parseScalarTag, parseBlobP, takeNats_encBytes]
    | indirectInt i => simp [encNode, parseNode, parseScalarTag, parseIndIntP]
    | indirectUInt nn => simp [encNode, parseNode, parseScalarTag, parseIndUIntP]
    | indirectFloat fl =>
      simp [encNode, parseNode, parseScalarTag, parseIndFloatP, parseF64_encF64]
    | vector es =>
      have h2 : (encList es).length ≤ f := by simp [encNode] at h; omega
      have hp : ∀ e ∈ es, ∀ r2, parseNode f (encNode e ++ r2) = some (e, r2) := by
        intro e he r2
        exact ih e r2 ((encNode_length_le_encList e es he).trans h2)
      simp [encNode, parseNode, parseNodesWith_encList (parseNode f) es hp r]
    | map es =>
      have h2 : (encEntries es).length ≤ f := by simp [encNode] at h; omega
      have hp : ∀ kv ∈ es, ∀ r2, parseNode f (encNode kv.2 ++ r2) = some (kv.2, r2) := by
        intro kv hkv r2
        exact ih kv.2 r2 ((encNode_length_le_encEntries kv es hkv).trans h2)
      simp [encNode, parseNode, parseEntriesWith_encEntries (parseNode f) es hp r]

/-- `get_root` recovers the node a builder produced. -/
theorem getRoot_encNode (n : FlexNode) : getRoot (encNode n) = .ok n := by
  have h := parseNode_encNode (encNode n).length n [] (le_refl _)
  rw [List.append_nil] at h
  simp [getRoot, h]

/-- `get_root` fails on the empty buffer. -/
theorem getRoot_nil : getRoot [] = .error "failed to locate root" := by
  simp [getRoot, parseNode]

/-! ## Pipeline lemmas -/

/-- The free `serialize` is `serialize_value` followed by taking the
builder's buffer. -/
theorem serialize_eq (v : Value) : serialize v = (serialize_value v).map encNode := by
  cases h : serialize_value v <;>
    simp [serialize, FlexBuffer.serialize, FlexBuffer.new, FlexBuffer.get_buffer, h, Except.map]

/-- The free `deserialize` applied to a built buffer is `deserialize_value`
on the built node. -/
theorem deserialize_encNode (node : FlexNode) :
    deserialize (encNode node) = deserialize_value node := by
  have hroot := getRoot_encNode node
  have hpos := encNode_length_pos node
  cases henc : encNode node with
  | nil => rw [henc] at hpos; simp at hpos
  | cons a l =>
    rw [henc] at hroot
    simp [deserialize, FlexBuffer.from_buffer, hroot, FlexBuffer.deserialize]

/-- The vector loop keeps exactly the successfully decoded elements, in
order. -/
theorem deserializeItems_eq (es : List FlexNode) :
    deserializeItems es = es.filterMap (fun e => (deserialize_value e).toOption) := by
  induction es with
  | nil => simp [deserializeItems]
  | cons e es ih =>
    cases h : deserialize_value e <;> simp [deserializeItems, h, ih, Except.toOption]

/-- The map loop inserts exactly the successfully decoded entries, in
order. -/
theorem deserializeEntries_eq (es : List (String × FlexNode)) (obj : List (String × Value)) :
    deserializeEntries es obj =
      (es.filterMap (fun kv => (deserialize_value kv.2).toOption.map (fun v => (kv.1, v)))).foldl
        (fun acc kv => objInsert kv.1 kv.2 acc) obj := by
  induction es generalizing obj with
  | nil => simp [deserializeEntries]
  | cons kv es ih =>
    obtain ⟨k, nd⟩ := kv
    cases h : deserialize_value nd <;> simp [deserializeEntries, h, ih, Except.toOption]

/-- An unsupported tag makes `deserialize_value` fail with the
`Unsupported flexbuffer type` error. -/
theorem deserialize_value_unsupported (n : FlexNode) (h : isUnsupportedTag n = true) :
    deserialize_value n = .error (unsupportedErr n) := by
  cases n <;> simp [isUnsupportedTag] at h <;> simp [deserialize_value]

/-- Every supported tag decodes successfully: errors come only from
unsupported tags. -/
theorem deserialize_value_ok_or_unsupported (n : FlexNode) :
    (deserialize_value n).isOk = true ∨ isUnsupportedTag n = true := by
  cases n with
  | string s =>
    left
    cases h : jsonFromStr s with
    | ok v => cases v <;> simp [deserialize_value, h, Except.isOk, Except.toBool]
    | error e => simp [deserialize_value, h, Except.isOk, Except.toBool]
  | null => left; simp [deserialize_value, Except.isOk, Except.toBool]
  | bool b => left; simp [deserialize_value, Except.isOk, Except.toBool]
  | int i => left; simp [deserialize_value, Except.isOk, Except.toBool]
  | uint nn => left; simp [deserialize_value, Except.isOk, Except.toBool]
  | float f => left; simp [deserialize_value, Except.isOk, Except.toBool]
  | vector es => left; simp [deserialize_value, Except.isOk, Except.toBool]
  | map es => left; simp [deserialize_value, Except.isOk, Except.toBool]
  | key s => right; simp [isUnsupportedTag]
  | blob bs => right; simp [isUnsupportedTag]
  | indirectInt i => right; simp [isUnsupportedTag]
  | indirectUInt nn => right; simp [isUnsupportedTag]
  | indirectFloat f => right; simp [isUnsupportedTag]

/-! ## Claim theorems -/

/-- Claim C1, counterexample: the scalar-only value `"42"` (a String) does
not round-trip: decoding the encoded buffer re-parses the text as JSON and
returns the integer 42 instead of the original string. -/
theorem c1_counterexample :
    (serialize (Value.str "42")).bind deserialize
        = .ok (Value.number (JNum.posInt 42)) ∧
      Value.number (JNum.posInt 42) ≠ Value.str "42" := by
  constructor
  · rw [serialize_eq]
    simp only [serialize_value, Except.map, Except.bind]
    rw [deserialize_encNode]
    simp only [deserialize_value]
    rfl
  · intro h
    exact Value.noConfusion h

/-- Claim C1 (amended): for every value composed only of Null, Bool, String
and Number with no Array/Object, where each Number is either within signed
64-bit range (negative integer form stored negative) or already in float
form, and each String's text does not parse as a non-string JSON value,
decoding the encoded buffer returns the value exactly, with integer form
preserved. -/
theorem c1_round_trip (v : Value) (h : scalarRoundTrippable v = true) :
    (serialize v).bind deserialize = .ok v := by
  rw [serialize_eq]
  cases v with
  | null =>
    simp only [serialize_value, Except.map, Except.bind]
    rw [deserialize_encNode]
    simp [deserialize_value]
  | bool b =>
    simp only [serialize_value, Except.map, Except.bind]
    rw [deserialize_encNode]
    simp [deserialize_value]
  | number n =>
    cases n with
    | posInt nn =>
      have hle : nn ≤ i64Max := by
        simpa [scalarRoundTrippable] using h
      simp only [serialize_value, jNumAsI64, if_pos hle, Except.map, Except.bind]
      rw [deserialize_encNode]
      simp only [deserialize_value, jNumOfI64]
      rw [if_neg (by omega)]
      simp
    | negInt i =>
      have hneg : i < 0 := by
        simpa [scalarRoundTrippable] using h
      simp only [serialize_value, jNumAsI64, Except.map, Except.bind]
      rw [deserialize_encNode]
      simp only [deserialize_value, jNumOfI64]
      rw [if_pos hneg]
    | float q =>
      simp only [serialize_value, jNumAsI64, jNumAsF64, Except.map, Except.bind]
      rw [deserialize_encNode]
      simp [deserialize_value, jNumFromF64]
  | str s =>
    simp only [serialize_value, Except.map, Except.bind]
    rw [deserialize_encNode]
    cases heq : jsonFromStr s with
    | ok v2 =>
      cases v2 with
      | str t => simp [deserialize_value, heq]
      | null => simp [scalarRoundTrippable, heq] at h
      | bool b => simp [scalarRoundTrippable, heq] at h
      | number nn => simp [scalarRoundTrippable, heq] at h
      | arr xs => simp [scalarRoundTrippable, heq] at h
      | obj es => simp [scalarRoundTrippable, heq] at h
    | error e => simp [deserialize_value, heq]
  | arr xs => simp [scalarRoundTrippable] at h
  | obj es => simp [scalarRoundTrippable] at h

/-- Claim C1 (amended), witness at the string `"hello"`, which does not parse
as JSON. -/
theorem c1_round_trip_witness :
    scalarRoundTrippable (Value.str "hello") = true ∧
      (serialize (Value.str "hello")).bind deserialize = .ok (Value.str "hello") :=
  ⟨by rfl, c1_round_trip (Value.str "hello") (by rfl)⟩

/-- Claim C2, counterexample: the `u64` value `2^64 - 1` is exactly
representable as neither a signed 64-bit integer nor a 64-bit float, yet
encoding it succeeds (it is encoded lossily as the nearest float) instead of
failing with `InvalidNumber`. -/
theorem c2_counterexample :
    exactI64Rep (Int.ofNat 18446744073709551615) = false ∧
      exactF64Rep (Int.ofNat 18446744073709551615) = false ∧
      (serialize (Value.number (JNum.posInt 18446744073709551615))).isOk = true := by
  refine ⟨by decide, by decide, ?_⟩
  rw [serialize_eq]
  rfl

/-- Claim C2 (amended): encode never fails on any value of the model: a
`Number` in signed 64-bit range is encoded as an integer and every other
`Number` is (possibly lossily) encoded via the total `as_f64` conversion, so
the `InvalidNumber` error path is unreachable. -/
theorem c2_encode_total :
    (∀ v : Value, (serialize v).isOk = true) ∧
      ∀ n : JNum, (jNumAsF64 n).isSome = true := by
  constructor
  · intro v
    rw [serialize_eq]
    cases v with
    | null => rfl
    | bool b => rfl
    | str s => rfl
    | arr xs => rfl
    | obj es => rfl
    | number n =>
      cases n with
      | posInt nn =>
        by_cases hle : nn ≤ i64Max <;>
          simp [serialize_value, jNumAsI64, jNumAsF64, hle, Except.map,
            Except.isOk, Except.toBool]
      | negInt i =>
        simp [serialize_value, jNumAsI64, Except.map, Except.isOk, Except.toBool]
      | float q =>
        simp [serialize_value, jNumAsI64, jNumAsF64, Except.map,
          Except.isOk, Except.toBool]
  · intro n
    cases n <;> simp [jNumAsF64]

/-- Claim C3: inside containers decoding is best-effort, the vector loop
keeping exactly the elements that decode and the map loop inserting exactly
the entries whose values decode, while a root node with an unsupported tag
fails the whole decode with the `Unsupported flexbuffer type` error. -/
theorem c3_container_skip_root_strict :
    (∀ es : List FlexNode,
        deserialize_value (.vector es)
          = .ok (.arr (es.filterMap (fun e => (deserialize_value e).toOption)))) ∧
      (∀ es : List (String × FlexNode),
        deserialize_value (.map es)
          = .ok (.obj ((es.filterMap
              (fun kv => (deserialize_value kv.2).toOption.map (fun v => (kv.1, v)))).foldl
                (fun acc kv => objInsert kv.1 kv.2 acc) []))) ∧
      ∀ (fb : FlexBuffer) (root : FlexNode),
        getRoot fb.data = .ok root → isUnsupportedTag root = true →
          fb.deserialize = .error (unsupportedErr root) := by
  refine ⟨?_, ?_, ?_⟩
  · intro es
    simp [deserialize_value, deserializeItems_eq]
  · intro es
    simp [deserialize_value, deserializeEntries_eq]
  · intro fb root hroot hunsup
    cases hd : fb.data with
    | nil =>
      rw [hd, getRoot_nil] at hroot
      exact Except.noConfusion hroot
    | cons a l =>
      rw [hd] at hroot
      simp [FlexBuffer.deserialize, hd, hroot,
        deserialize_value_unsupported root hunsup]

/-- Claim C3, witness: a vector with one well-formed child and one
unsupported child decodes to the singleton array, and a buffer whose root is
a Key node fails the whole decode. -/
theorem c3_container_skip_root_strict_witness :
    deserialize_value (.vector [.int 1, .key "x"])
        = .ok (.arr [.number (.posInt 1)]) ∧
      FlexBuffer.deserialize ⟨[BByte.tag 6, BByte.str "x"]⟩
        = .error (unsupportedErr (.key "x")) := by
  constructor
  · rw [c3_container_skip_root_strict.1]
    simp [deserialize_value, jNumOfI64, Except.toOption]
  · exact c3_container_skip_root_strict.2.2 ⟨[BByte.tag 6, BByte.str "x"]⟩
      (.key "x") (by rfl) (by rfl)

/-- Claim C4: a String node is re-parsed as JSON: a successful parse to a
plain string returns the original text as a literal string, a successful
parse to a non-string structure returns the parsed structure, and a failed
parse returns the literal string. -/
theorem c4_string_reparse (s : String) :
    deserialize_value (.string s)
      = .ok (match jsonFromStr s with
             | .ok (.str _) => .str s
             | .ok v => v
             | .error _ => .str s) := by
  cases h : jsonFromStr s with
  | ok v => cases v <;> simp [deserialize_value, h]
  | error e => simp [deserialize_value, h]

/-- Claim C5: decoding has no depth guard: a vector nested to any depth `d`
decodes successfully (to the corresponding nested array) instead of failing
with a `DepthExceeded` error, and the only decode-side error at any node is
the unsupported-tag error, so no depth-bound error exists at all. -/
theorem c5_no_depth_guard :
    (∀ d : Nat, deserialize_value (nestVec d) = .ok (nestArr d)) ∧
      ∀ n : FlexNode, (deserialize_value n).isOk = true ∨ isUnsupportedTag n = true := by
  constructor
  · intro d
    induction d with
    | zero => simp [nestVec, nestArr, deserialize_value]
    | succ d ih =>
      simp [nestVec, nestArr, deserialize_value, deserializeItems, ih]
  · exact deserialize_value_ok_or_unsupported

/-- Claim C6: `FlexBuffer::serialize` is atomic: on failure the stored bytes
are unchanged, and on success they are replaced wholesale by the buffer
built for the value. -/
theorem c6_serialize_atomic (fb : FlexBuffer) (v : Value) :
    ((fb.serialize v).2.isOk = false → (fb.serialize v).1 = fb) ∧
      ∀ node : FlexNode, serialize_value v = .ok node →
        (fb.serialize v).1 = ⟨encNode node⟩ := by
  cases h : serialize_value v with
  | ok node =>
    constructor
    · intro hfail
      simp [FlexBuffer.serialize, h, Except.isOk, Except.toBool] at hfail
    · intro nd hnd
      cases hnd
      simp [FlexBuffer.serialize, h]
  | error e =>
    constructor
    · intro _
      simp [FlexBuffer.serialize, h]
    · intro nd hnd
      exact Except.noConfusion hnd

/-- Claim C6, witness: serializing Null into a fresh container stores exactly
the buffer built for the Null node. -/
theorem c6_serialize_atomic_witness :
    (FlexBuffer.new.serialize Value.null).1 = ⟨encNode FlexNode.null⟩ :=
  (c6_serialize_atomic FlexBuffer.new Value.null).2 FlexNode.null (by rfl)

/-- Claim C7: decoding a freshly constructed container returns the
`Buffer is empty` error value, and the same holds for every container whose
stored byte sequence is empty. -/
theorem c7_empty_buffer :
    FlexBuffer.new.deserialize = .error ⟨.invalidArg, "Buffer is empty"⟩ ∧
      ∀ fb : FlexBuffer, fb.data = [] →
        fb.deserialize = .error ⟨.invalidArg, "Buffer is empty"⟩ := by
  constructor
  · simp [FlexBuffer.new, FlexBuffer.deserialize]
  · intro fb h
    simp [FlexBuffer.deserialize, h]

/-- Claim C7, witness at the container with explicitly empty bytes. -/
theorem c7_empty_buffer_witness :
    FlexBuffer.deserialize ⟨[]⟩ = .error ⟨.invalidArg, "Buffer is empty"⟩ :=
  c7_empty_buffer.2 ⟨[]⟩ rfl

/-- Claim C8: for a container whose bytes hold a valid root, wrapping the
bytes returned by `get_buffer` succeeds and the wrapped container decodes to
the same output. -/
theorem c8_wrap_raw_bytes (fb : FlexBuffer) (h : (getRoot fb.data).isOk = true) :
    ∃ fb2 : FlexBuffer, FlexBuffer.from_buffer fb.get_buffer = .ok fb2 ∧
      fb2.deserialize = fb.deserialize := by
  cases hroot : getRoot fb.data with
  | error e =>
    rw [hroot] at h
    simp [Except.isOk, Except.toBool] at h
  | ok root =>
    refine ⟨fb, ?_, rfl⟩
    simp [FlexBuffer.from_buffer, FlexBuffer.get_buffer, hroot]

/-- Claim C8, witness at a container holding a valid one-node buffer. -/
theorem c8_wrap_raw_bytes_witness :
    ∃ fb2 : FlexBuffer,
      FlexBuffer.from_buffer (FlexBuffer.get_buffer ⟨[BByte.tag 0]⟩) = .ok fb2 ∧
        fb2.deserialize = FlexBuffer.deserialize ⟨[BByte.tag 0]⟩ :=
  c8_wrap_raw_bytes ⟨[BByte.tag 0]⟩ (by rfl)

/-- Claim C9: a Float node whose payload is not a representable number (NaN
or an infinity, rejected by `Number::from_f64`) decodes to the integer-form
zero instead of failing. -/
theorem c9_nonfinite_float_zero (f : F64) (h : jNumFromF64 f = none) :
    deserialize_value (.float f) = .ok (.number (.posInt 0)) := by
  simp [deserialize_value, h, jNumOfI64]

/-- Claim C9, witness at NaN. -/
theorem c9_nonfinite_float_zero_witness :
    jNumFromF64 F64.nan = none ∧
      deserialize_value (.float .nan) = .ok (.number (.posInt 0)) :=
  ⟨rfl, c9_nonfinite_float_zero .nan rfl⟩

/-- Claim C10: `size` returns the stored byte count reduced modulo `2^32`
(the `as u32` cast), hence the exact count whenever fewer than `2^32` bytes
are stored. -/
theorem c10_size_u32 (fb : FlexBuffer) :
    fb.size = fb.data.length % 2 ^ 32 ∧
      (fb.data.length < 2 ^ 32 → fb.size = fb.data.length) := by
  constructor
  · rfl
  · intro h
    have h2 : fb.data.length < 4294967296 := by omega
    simp [FlexBuffer.size, Nat.mod_eq_of_lt h2]

/-- Claim C10, witness at a one-byte container. -/
theorem c10_size_u32_witness : FlexBuffer.size ⟨[BByte.tag 0]⟩ = 1 := by
  have h := (c10_size_u32 ⟨[BByte.tag 0]⟩).2 (by decide)
  simpa using h
